import Mathlib

/-!
Shallow embedding of the CGWB Coimbatore groundwater pipeline
(src/csv1.py together with the standalone importer src/mongo.py) and
verification of its specified properties.

The pipeline has four stages: a web scraper that walks the wells table and
appends each well's exported readings to one long-format CSV
(scrape_coimbatore_data, process_downloaded_csv), a temporal filter that
keeps the 2025 readings of months 1, 4, 8, 11 and selects per
(well, month) the reading closest to mid-month (filter_cgwb_data,
pick_mid_month), a pivot to one wide row per well (merge_well_readings),
and a MongoDB upserter (import_well_data).
-/

namespace Scrap

/-- YEAR = 2025, csv1.py line 32. -/
def YEAR : Nat := 2025

/-- MONTHS_TO_KEEP = [1, 4, 8, 11], csv1.py line 31 (Jan, Apr, Aug, Nov). -/
def MONTHS_TO_KEEP : List Nat := [1, 4, 8, 11]

/-- A calendar timestamp as the filter uses it: year, month, day-of-month. -/
structure Stamp where
  year : Nat
  month : Nat
  day : Nat
deriving DecidableEq, Repr

/-- One long-format row of the combined CSV as read by filter_cgwb_data.
date = none models a Date cell that pd.to_datetime (errors="coerce",
csv1.py line 331) turns into NaT; such rows are dropped by the dropna on
line 332. rest carries all remaining columns opaquely. -/
structure Row where
  well : String
  date : Option Stamp
  rest : List String
deriving DecidableEq, Repr

/-- A row whose Date parsed (it survived the dropna of csv1.py line 332). -/
structure DRow where
  well : String
  date : Stamp
  rest : List String
deriving DecidableEq, Repr

/-- Rows surviving pd.to_datetime + dropna (csv1.py lines 331-332). -/
def dated_rows (rows : List Row) : List DRow :=
  rows.filterMap (fun r => r.date.map (fun d => ⟨r.well, d, r.rest⟩))

/-- df_2025: rows whose year equals YEAR (csv1.py line 334). -/
def year_rows (rows : List Row) : List DRow :=
  (dated_rows rows).filter (fun r => r.date.year == YEAR)

/-- df_filtered: rows whose month is in MONTHS_TO_KEEP (csv1.py line 341). -/
def month_rows (rows : List Row) : List DRow :=
  (year_rows rows).filter (fun r => MONTHS_TO_KEEP.contains r.date.month)

/-- day_diff of pick_mid_month: abs(day - 15), csv1.py line 352. -/
def day_diff (r : DRow) : Nat := Int.natAbs ((r.date.day : Int) - 15)

/-- The groupby key of csv1.py line 356: (Well_ID, YearMonth), where the
YearMonth period of line 348 is the (year, month) pair of the Date. -/
def well_month_key (r : DRow) : String × Nat × Nat :=
  (r.well, r.date.year, r.date.month)

/-- pick_mid_month (csv1.py lines 350-353): group.loc of day_diff.idxmin(),
the first row of the group attaining the minimal abs(day - 15); pandas
idxmin returns the first index label achieving the minimum, and a groupby
group keeps the original row order of the dataframe. -/
def pick_mid_month : List DRow → Option DRow
  | [] => none
  | r :: rs =>
    match pick_mid_month rs with
    | none => some r
    | some b => if day_diff r ≤ day_diff b then some r else some b

/-- Ascending order on groupby keys, Bool-valued: pandas groupby emits its
groups in ascending key order (lexicographic on (Well_ID, YearMonth)). -/
def keyLeB (a b : String × Nat × Nat) : Bool :=
  match compare a.1 b.1 with
  | Ordering.lt => true
  | Ordering.gt => false
  | Ordering.eq => decide (a.2.1 < b.2.1 ∨ (a.2.1 = b.2.1 ∧ a.2.2 ≤ b.2.2))

/-- The key order as a relation, for List.insertionSort. -/
def keyLe (a b : String × Nat × Nat) : Prop := keyLeB a b = true

instance : DecidableRel keyLe :=
  fun a b => inferInstanceAs (Decidable (keyLeB a b = true))

/-- The group of rows of one (Well_ID, YearMonth) key inside the
month-filtered dataframe (the rows csv1.py line 356 groups together). -/
def group_of (rows : List Row) (k : String × Nat × Nat) : List DRow :=
  (month_rows rows).filter (fun r => well_month_key r == k)

/-- The groupby(["Well_ID", "YearMonth"]).apply(pick_mid_month) of
csv1.py lines 355-359: one representative row per key, keys in ascending
order as pandas emits the groups. -/
def select_groups (l : List DRow) : List DRow :=
  (List.insertionSort keyLe ((l.map well_month_key).dedup)).filterMap
    (fun k => pick_mid_month (l.filter (fun r => well_month_key r == k)))

/-- Ascending order on output rows for the final
sort_values(["Well_ID", "Date"]) of csv1.py line 368. -/
def rowLeB (a b : DRow) : Bool :=
  match compare a.well b.well with
  | Ordering.lt => true
  | Ordering.gt => false
  | Ordering.eq =>
    decide ((a.date.year, a.date.month, a.date.day) ≤
            (b.date.year, b.date.month, b.date.day))

/-- The output row order as a relation, for List.insertionSort. -/
def rowLe (a b : DRow) : Prop := rowLeB a b = true

instance : DecidableRel rowLe :=
  fun a b => inferInstanceAs (Decidable (rowLeB a b = true))

/-- Result of filter_cgwb_data: the function returns False (fail) or
writes the selected rows and returns True (ok). -/
inductive FilterResult where
  | fail : FilterResult
  | ok : List DRow → FilterResult
deriving DecidableEq, Repr

/-- filter_cgwb_data (csv1.py lines 300-374), starting from the parsed
dataframe: it returns False when no row survives the year filter
(lines 337-339) or the month filter (lines 344-346); otherwise it selects
one mid-month row per (Well_ID, YearMonth) group, drops the helper
columns, sorts by (Well_ID, Date) and returns True. The earlier
structural returns (missing file, unreadable CSV, missing required
columns, lines 308-325) are outside this model, which starts from rows
already in memory. -/
def filter_cgwb_data (rows : List Row) : FilterResult :=
  if (year_rows rows).length = 0 then FilterResult.fail
  else if (month_rows rows).length = 0 then FilterResult.fail
  else FilterResult.ok (List.insertionSort rowLe (select_groups (month_rows rows)))

/-- main (csv1.py lines 598-600) stops the pipeline when filter_cgwb_data
returns False: merging runs only on a True result. -/
def pipeline_runs_merge (rows : List Row) : Bool :=
  match filter_cgwb_data rows with
  | FilterResult.fail => false
  | FilterResult.ok _ => true

/-- pick_mid_month yields none exactly on the empty group. -/
theorem pick_mid_month_eq_none {l : List DRow} :
    pick_mid_month l = none ↔ l = [] := by
  cases l with
  | nil => simp [pick_mid_month]
  | cons r rs =>
    simp only [pick_mid_month]
    cases pick_mid_month rs with
    | none => simp
    | some b =>
      by_cases h : day_diff r ≤ day_diff b <;> simp [h]

/-- On a nonempty group, pick_mid_month returns a member of the group that
minimizes day_diff, and among the rows tying on that minimum it is the
first one in the group's order. -/
theorem pick_mid_month_spec :
    ∀ (g : List DRow), g ≠ [] →
      ∃ r, pick_mid_month g = some r ∧ r ∈ g ∧
        (∀ s ∈ g, day_diff r ≤ day_diff s) ∧
        g.find? (fun s => day_diff s == day_diff r) = some r := by
  intro g
  induction g with
  | nil => intro h; exact absurd rfl h
  | cons x xs ih =>
    intro _
    by_cases hxs : xs = []
    · subst hxs
      refine ⟨x, rfl, List.mem_singleton.mpr rfl, ?_, ?_⟩
      · intro s hs
        rcases List.mem_singleton.mp hs with rfl
        exact le_refl _
      · simp [List.find?]
    · obtain ⟨b, hb, hbmem, hbmin, hbfind⟩ := ih hxs
      by_cases hle : day_diff x ≤ day_diff b
      · refine ⟨x, ?_, List.mem_cons_self x xs, ?_, ?_⟩
        · simp only [pick_mid_month, hb, if_pos hle]
        · intro s hs
          rcases List.mem_cons.mp hs with rfl | hs'
          · exact le_refl _
          · exact le_trans hle (hbmin s hs')
        · simp [List.find?]
      · refine ⟨b, ?_, List.mem_cons_of_mem x hbmem, ?_, ?_⟩
        · simp only [pick_mid_month, hb, if_neg hle]
        · intro s hs
          rcases List.mem_cons.mp hs with rfl | hs'
          · exact le_of_lt (lt_of_not_le hle)
          · exact hbmin s hs'
        · have hne : (day_diff x == day_diff b) = false := by
            simp only [beq_eq_false_iff_ne, ne_eq]
            intro hcontra
            exact hle (le_of_eq hcontra)
          rw [List.find?_cons, hne]
          exact hbfind

/-- Any row pick_mid_month selects belongs to the group. -/
theorem pick_mid_month_mem {g : List DRow} {r : DRow}
    (h : pick_mid_month g = some r) : r ∈ g := by
  have hg : g ≠ [] := by
    intro hnil; subst hnil; simp [pick_mid_month] at h
  obtain ⟨r', hr', hmem, _, _⟩ := pick_mid_month_spec g hg
  rw [hr'] at h
  exact (Option.some.injEq _ _ ▸ h : r' = r) ▸ hmem

/-- The representative selected for a key has that key. -/
theorem pick_key_of_filter {l : List DRow} {k : String × Nat × Nat} {r : DRow}
    (h : pick_mid_month (l.filter (fun s => well_month_key s == k)) = some r) :
    well_month_key r = k := by
  have hmem := pick_mid_month_mem h
  have := List.of_mem_filter hmem
  exact beq_iff_eq.mp this

/-- Keys absent from a key list contribute nothing to the selection. -/
theorem sel_filter_eq_nil (l : List DRow) (ks : List (String × Nat × Nat))
    (k : String × Nat × Nat) (hk : k ∉ ks) :
    (ks.filterMap
        (fun k' => pick_mid_month (l.filter (fun s => well_month_key s == k')))).filter
      (fun s => well_month_key s == k) = [] := by
  induction ks with
  | nil => rfl
  | cons a ks ih =>
    rw [List.filterMap_cons]
    have hka : k ≠ a := fun h => hk (h ▸ List.mem_cons_self a ks)
    have hks : k ∉ ks := fun h => hk (List.mem_cons_of_mem a h)
    cases hpick : pick_mid_month (l.filter (fun s => well_month_key s == a)) with
    | none => exact ih hks
    | some r =>
      have hkey : well_month_key r = a := pick_key_of_filter hpick
      have hne : (well_month_key r == k) = false := by
        simp only [beq_eq_false_iff_ne, ne_eq, hkey]
        exact fun h => hka h.symm
      rw [List.filter_cons, hne]
      exact ih hks

/-- On a nodup key list containing k, the selection contributes exactly the
one representative of group k. -/
theorem sel_filter_singleton (l : List DRow) (ks : List (String × Nat × Nat))
    (k : String × Nat × Nat) (hnd : ks.Nodup) (hk : k ∈ ks)
    (hne : l.filter (fun s => well_month_key s == k) ≠ []) :
    ∃ r, pick_mid_month (l.filter (fun s => well_month_key s == k)) = some r ∧
      (ks.filterMap
          (fun k' => pick_mid_month (l.filter (fun s => well_month_key s == k')))).filter
        (fun s => well_month_key s == k) = [r] := by
  induction ks with
  | nil => cases hk
  | cons a ks ih =>
    rcases List.mem_cons.mp hk with rfl | hk'
    · obtain ⟨r, hr⟩ : ∃ r,
          pick_mid_month (l.filter (fun s => well_month_key s == k)) = some r := by
        cases hpick : pick_mid_month (l.filter (fun s => well_month_key s == k)) with
        | none => exact absurd (pick_mid_month_eq_none.mp hpick) hne
        | some r => exact ⟨r, rfl⟩
      refine ⟨r, hr, ?_⟩
      rw [List.filterMap_cons, hr]
      have hkey : well_month_key r = k := pick_key_of_filter hr
      have hpos : (well_month_key r == k) = true := by
        simp [hkey]
      rw [List.filter_cons, hpos]
      have hknotin : k ∉ ks := (List.nodup_cons.mp hnd).1
      rw [sel_filter_eq_nil l ks k hknotin]
      simp
    · have hnd' : ks.Nodup := (List.nodup_cons.mp hnd).2
      have hak : a ∉ ks := (List.nodup_cons.mp hnd).1
      have hka : a ≠ k := fun h => hak (h ▸ hk')
      obtain ⟨r, hr, hfilter⟩ := ih hnd' hk'
      refine ⟨r, hr, ?_⟩
      rw [List.filterMap_cons]
      cases hpick : pick_mid_month (l.filter (fun s => well_month_key s == a)) with
      | none => exact hfilter
      | some r' =>
        have hkey : well_month_key r' = a := pick_key_of_filter hpick
        have hne' : (well_month_key r' == k) = false := by
          simp only [beq_eq_false_iff_ne, ne_eq, hkey]
          exact hka
        rw [List.filter_cons, hne']
        exact hfilter

/-- C1: for every (well identity, calendar month) group surviving the year
and month filters, the temporal filter selects exactly one reading (the
output contains exactly one row of that group's key), and it is a reading
whose day-of-month minimizes abs(day - 15) over the group, ties broken by
first occurrence in the input sequence. -/
theorem C1_mid_month_selection (rows : List Row) (k : String × Nat × Nat)
    (hk : k ∈ (month_rows rows).map well_month_key) :
    ∃ r out, filter_cgwb_data rows = FilterResult.ok out ∧
      pick_mid_month (group_of rows k) = some r ∧
      out.filter (fun s => well_month_key s == k) = [r] ∧
      r ∈ group_of rows k ∧
      (∀ s ∈ group_of rows k, day_diff r ≤ day_diff s) ∧
      (group_of rows k).find? (fun s => day_diff s == day_diff r) = some r := by
  obtain ⟨w, hw, hwk⟩ := List.mem_map.mp hk
  have hwgrp : w ∈ group_of rows k := by
    refine List.mem_filter.mpr ⟨hw, ?_⟩
    simp [hwk]
  have hgne : group_of rows k ≠ [] := List.ne_nil_of_mem hwgrp
  obtain ⟨r, hr, hmem, hmin, hfind⟩ := pick_mid_month_spec (group_of rows k) hgne
  have hmne : month_rows rows ≠ [] := List.ne_nil_of_mem hw
  have hyne : year_rows rows ≠ [] := by
    have hw' : w ∈ (year_rows rows).filter
        (fun r => MONTHS_TO_KEEP.contains r.date.month) := hw
    exact List.ne_nil_of_mem (List.mem_of_mem_filter hw')
  have hout : filter_cgwb_data rows =
      FilterResult.ok
        (List.insertionSort rowLe (select_groups (month_rows rows))) := by
    unfold filter_cgwb_data
    rw [if_neg (fun h => hyne (List.length_eq_zero.mp h)),
      if_neg (fun h => hmne (List.length_eq_zero.mp h))]
  have hknd :
      (List.insertionSort keyLe (((month_rows rows).map well_month_key).dedup)).Nodup :=
    ((List.perm_insertionSort keyLe _).nodup_iff).mpr (List.nodup_dedup _)
  have hkmem :
      k ∈ List.insertionSort keyLe (((month_rows rows).map well_month_key).dedup) :=
    ((List.perm_insertionSort keyLe _).mem_iff).mpr (List.mem_dedup.mpr hk)
  obtain ⟨r', hr', hsel⟩ :=
    sel_filter_singleton (month_rows rows)
      (List.insertionSort keyLe (((month_rows rows).map well_month_key).dedup))
      k hknd hkmem hgne
  have hrr : r' = r := by
    have : some r' = some r := by rw [← hr', ← hr]; rfl
    exact Option.some.injEq _ _ ▸ this
  subst hrr
  refine ⟨r', List.insertionSort rowLe (select_groups (month_rows rows)),
    hout, hr, ?_, hmem, hmin, hfind⟩
  have hperm :
      List.Perm
        ((List.insertionSort rowLe (select_groups (month_rows rows))).filter
          (fun s => well_month_key s == k))
        ((select_groups (month_rows rows)).filter
          (fun s => well_month_key s == k)) :=
    (List.perm_insertionSort rowLe _).filter _
  have hsel' : (select_groups (month_rows rows)).filter
      (fun s => well_month_key s == k) = [r'] := hsel
  rw [hsel'] at hperm
  exact List.perm_singleton.mp hperm

/-- Witness for C1 at the spec's worked example: well W1 with readings on
2025-01-10, 2025-01-20 (a tie on abs(day - 15), first occurrence wins) and
2025-04-14, at the January key. -/
theorem C1_mid_month_selection_witness :
    ∃ r out,
      filter_cgwb_data
          [⟨"W1", some ⟨2025, 1, 10⟩, ["5.2"]⟩,
           ⟨"W1", some ⟨2025, 1, 20⟩, ["5.8"]⟩,
           ⟨"W1", some ⟨2025, 4, 14⟩, ["6.0"]⟩] = FilterResult.ok out ∧
      pick_mid_month (group_of
          [⟨"W1", some ⟨2025, 1, 10⟩, ["5.2"]⟩,
           ⟨"W1", some ⟨2025, 1, 20⟩, ["5.8"]⟩,
           ⟨"W1", some ⟨2025, 4, 14⟩, ["6.0"]⟩] ("W1", 2025, 1)) = some r ∧
      out.filter (fun s => well_month_key s == ("W1", 2025, 1)) = [r] ∧
      r ∈ group_of
          [⟨"W1", some ⟨2025, 1, 10⟩, ["5.2"]⟩,
           ⟨"W1", some ⟨2025, 1, 20⟩, ["5.8"]⟩,
           ⟨"W1", some ⟨2025, 4, 14⟩, ["6.0"]⟩] ("W1", 2025, 1) ∧
      (∀ s ∈ group_of
          [⟨"W1", some ⟨2025, 1, 10⟩, ["5.2"]⟩,
           ⟨"W1", some ⟨2025, 1, 20⟩, ["5.8"]⟩,
           ⟨"W1", some ⟨2025, 4, 14⟩, ["6.0"]⟩] ("W1", 2025, 1),
        day_diff r ≤ day_diff s) ∧
      (group_of
          [⟨"W1", some ⟨2025, 1, 10⟩, ["5.2"]⟩,
           ⟨"W1", some ⟨2025, 1, 20⟩, ["5.8"]⟩,
           ⟨"W1", some ⟨2025, 4, 14⟩, ["6.0"]⟩] ("W1", 2025, 1)).find?
        (fun s => day_diff s == day_diff r) = some r :=
  C1_mid_month_selection
    [⟨"W1", some ⟨2025, 1, 10⟩, ["5.2"]⟩,
     ⟨"W1", some ⟨2025, 1, 20⟩, ["5.8"]⟩,
     ⟨"W1", some ⟨2025, 4, 14⟩, ["6.0"]⟩] ("W1", 2025, 1) (by decide)

/-- C9 counterexample: on an input whose only reading is dated 2024 (so
nothing survives the year filter), filter_cgwb_data returns the failure
result False, not an empty sequence as a normal result; the failure value
is distinct from an ok result carrying the empty sequence. -/
theorem C9_counterexample :
    filter_cgwb_data [⟨"W1", some ⟨2024, 1, 10⟩, ["5.2"]⟩] = FilterResult.fail ∧
    FilterResult.fail ≠ FilterResult.ok ([] : List DRow) := by
  constructor
  · rfl
  · intro h
    cases h

/-- C9 amended: when no reading survives the year filter or the month
filter, filter_cgwb_data does not return an empty sequence; it returns the
same failure indicator (False) it uses for structural errors, and the
caller main() then halts the pipeline instead of deciding on an empty
output: the merge stage runs exactly when some reading survived both
filters. -/
theorem C9_empty_survivors_signal_failure (rows : List Row) :
    (filter_cgwb_data rows = FilterResult.fail ↔
      (year_rows rows = [] ∨ month_rows rows = [])) ∧
    (pipeline_runs_merge rows = false ↔ filter_cgwb_data rows = FilterResult.fail) := by
  constructor
  · unfold filter_cgwb_data
    by_cases h1 : (year_rows rows).length = 0
    · simp [h1, List.length_eq_zero.mp h1]
    · by_cases h2 : (month_rows rows).length = 0
      · simp [h1, h2, List.length_eq_zero.mp h2]
      · simp only [if_neg h1, if_neg h2]
        constructor
        · intro h; cases h
        · rintro (h | h)
          · exact absurd (h ▸ rfl) h1
          · exact absurd (h ▸ rfl) h2
  · unfold pipeline_runs_merge
    cases h : filter_cgwb_data rows <;> simp

/-- Column-set model of filter_cgwb_data. Assigning a new dataframe column
appends it unless a column of that name already exists (which is then
overwritten in place). -/
def add_col (cols : List String) (c : String) : List String :=
  if cols.contains c then cols else cols ++ [c]

/-- df.drop(columns=...) with errors="ignore": removes the named columns
wherever present (csv1.py line 360). -/
def drop_cols (cols : List String) (dropped : List String) : List String :=
  cols.filter (fun c => !(dropped.contains c))

/-- The metadata ordering applied when Latitude and Longitude are present
(csv1.py line 363). -/
def FILTER_METADATA_COLS : List String :=
  ["Well_ID", "Village", "Latitude", "Longitude", "Block", "Date"]

/-- Column reorder of csv1.py lines 363-366: existing metadata columns
first, then the remaining columns. -/
def reorder_metadata (cols : List String) : List String :=
  let existing := FILTER_METADATA_COLS.filter (fun c => cols.contains c)
  existing ++ cols.filter (fun c => !(existing.contains c))

/-- The columns of filter_cgwb_data's output as a function of the input
columns (csv1.py lines 348-368): YearMonth is assigned (line 348),
day_diff is assigned inside pick_mid_month and survives the groupby apply
(lines 352-359), both are dropped (line 360), and the metadata reorder of
lines 362-366 runs when the input has Latitude and Longitude. Row values
never influence which columns are added, dropped or reordered. -/
def filter_output_cols (cols : List String) : List String :=
  let c1 := add_col cols "YearMonth"
  let c2 := add_col c1 "day_diff"
  let c3 := drop_cols c2 ["YearMonth", "day_diff"]
  if cols.contains "Latitude" && cols.contains "Longitude" then
    reorder_metadata c3
  else c3

/-- A Boolean contains test means list membership. -/
theorem containsb_iff {α : Type _} [BEq α] [LawfulBEq α] {l : List α} {a : α} :
    l.contains a = true ↔ a ∈ l :=
  List.elem_iff

/-- Membership in add_col. -/
theorem mem_add_col {cols : List String} {a c : String} :
    c ∈ add_col cols a ↔ (c ∈ cols ∨ c = a) := by
  unfold add_col
  by_cases h : cols.contains a
  · rw [if_pos h]
    constructor
    · exact Or.inl
    · rintro (hc | rfl)
      · exact hc
      · exact containsb_iff.mp h
  · rw [if_neg h]
    simp

/-- Membership in reorder_metadata: reordering preserves the column set. -/
theorem mem_reorder_metadata {cols : List String} {c : String} :
    c ∈ reorder_metadata cols ↔ c ∈ cols := by
  unfold reorder_metadata
  constructor
  · intro h
    rcases List.mem_append.mp h with h | h
    · exact containsb_iff.mp (List.mem_filter.mp h).2
    · exact (List.mem_filter.mp h).1
  · intro hc
    by_cases hex : c ∈ FILTER_METADATA_COLS.filter (fun c => cols.contains c)
    · exact List.mem_append.mpr (Or.inl hex)
    · refine List.mem_append.mpr (Or.inr (List.mem_filter.mpr ⟨hc, ?_⟩))
      cases hc2 :
          (FILTER_METADATA_COLS.filter (fun c => cols.contains c)).contains c with
      | false => rfl
      | true => exact absurd (containsb_iff.mp hc2) hex

/-- C10 counterexample: on an input that itself carries a column named
day_diff (with the required Date and Well_ID columns), the filter's output
loses that input column: the output columns are not exactly the input's
columns. -/
theorem C10_counterexample :
    filter_output_cols ["Well_ID", "Date", "day_diff"] = ["Well_ID", "Date"] ∧
    "day_diff" ∈ ["Well_ID", "Date", "day_diff"] ∧
    filter_output_cols ["Well_ID", "Date", "day_diff"] ≠
      ["Well_ID", "Date", "day_diff"] := by
  refine ⟨by decide, by decide, by decide⟩

/-- C10 amended: the auxiliary working fields YearMonth and day_diff never
appear in the filter's output, and the output columns are exactly the
input's columns except that any input column named YearMonth or day_diff
is removed (so they are exactly the input's columns whenever the input
avoids those two reserved names). -/
theorem C10_aux_columns_dropped (cols : List String) :
    "YearMonth" ∉ filter_output_cols cols ∧
    "day_diff" ∉ filter_output_cols cols ∧
    ∀ c, c ∈ filter_output_cols cols ↔
      (c ∈ cols ∧ c ≠ "YearMonth" ∧ c ≠ "day_diff") := by
  have hmem : ∀ c, c ∈ filter_output_cols cols ↔
      (c ∈ cols ∧ c ≠ "YearMonth" ∧ c ≠ "day_diff") := by
    intro c
    unfold filter_output_cols drop_cols
    have hbase :
        c ∈ (add_col (add_col cols "YearMonth") "day_diff").filter
            (fun c => !(["YearMonth", "day_diff"].contains c)) ↔
          (c ∈ cols ∧ c ≠ "YearMonth" ∧ c ≠ "day_diff") := by
      rw [List.mem_filter]
      simp only [mem_add_col]
      constructor
      · rintro ⟨hc, hnot⟩
        have h1 : c ≠ "YearMonth" := by
          intro h; subst h; exact absurd hnot (by decide)
        have h2 : c ≠ "day_diff" := by
          intro h; subst h; exact absurd hnot (by decide)
        rcases hc with (hc | rfl) | rfl
        · exact ⟨hc, h1, h2⟩
        · exact absurd rfl h1
        · exact absurd rfl h2
      · rintro ⟨hc, h1, h2⟩
        refine ⟨Or.inl (Or.inl hc), ?_⟩
        cases hc2 : (["YearMonth", "day_diff"] : List String).contains c with
        | false => rfl
        | true =>
          have := containsb_iff.mp hc2
          rcases List.mem_cons.mp this with h | h
          · exact absurd h h1
          · exact absurd (List.mem_singleton.mp h) h2
    by_cases hll : cols.contains "Latitude" && cols.contains "Longitude"
    · rw [if_pos hll, mem_reorder_metadata]
      exact hbase
    · rw [if_neg hll]
      exact hbase
  refine ⟨?_, ?_, hmem⟩
  · intro h
    exact ((hmem _).mp h).2.1 rfl
  · intro h
    exact ((hmem _).mp h).2.2 rfl

/-- Per-well metadata scraped from a table row (well_info of csv1.py
lines 204-210). All fields are strings as scraped from the page. -/
structure WellInfo where
  well_id : String
  village : String
  latitude : String
  longitude : String
  block : String
deriving DecidableEq, Repr

/-- The defaults well_info starts from (csv1.py lines 204-210): the
identity defaults to the synthesized placeholder well_idx, the other
fields to the sentinel Unknown. -/
def default_well_info (idx : Nat) : WellInfo :=
  ⟨"well_" ++ toString idx, "Unknown", "Unknown", "Unknown", "Unknown"⟩

/-- Whitespace test for Python's str.strip(). -/
def is_space (c : Char) : Bool :=
  c == ' ' || c == '\t' || c == '\n' || c == '\r'

/-- Python's str.strip(): leading and trailing whitespace removed. -/
def py_strip (s : String) : String :=
  String.mk (((s.toList.dropWhile is_space).reverse.dropWhile is_space).reverse)

/-- Python's cells[i].strip() or default idiom: the stripped cell when it
is nonempty, the default otherwise (csv1.py lines 215-218). -/
def cell_or (s dflt : String) : String :=
  if py_strip s = "" then dflt else py_strip s

/-- Metadata extraction for one well (csv1.py lines 204-224). cellsOpt is
the list of text contents of the row's td cells; none models the row
locator raising (caught at line 223, leaving the defaults). When the row
has fewer than 5 cells the defaults are kept (line 214); the Block field
is never extracted from a cell and always keeps its default. -/
def extract_well_info (idx : Nat) (cellsOpt : Option (List String)) : WellInfo :=
  match cellsOpt with
  | none => default_well_info idx
  | some cells =>
    if 5 ≤ cells.length then
      { well_id := cell_or (cells.getD 1 "") ("well_" ++ toString idx)
        village := cell_or (cells.getD 2 "") "Unknown"
        latitude := cell_or (cells.getD 3 "") "Unknown"
        longitude := cell_or (cells.getD 4 "") "Unknown"
        block := "Unknown" }
    else default_well_info idx

/-- C6 counterexample: when extraction raises (or the row is too short),
the identity field is set to the synthesized placeholder well_3, not to
the sentinel Unknown as the claim states for every metadata field. -/
theorem C6_counterexample :
    (extract_well_info 3 none).well_id = "well_3" ∧
    (extract_well_info 3 none).well_id ≠ "Unknown" := by
  refine ⟨rfl, by decide⟩

/-- C6 amended: every metadata field other than the identity (village,
latitude, longitude, block) that is not confidently extracted - empty
cell, extraction raising, or fewer than 5 cells - is set to the sentinel
Unknown; the identity field instead falls back to the synthesized
placeholder well_ followed by the well's index, and block is always the
sentinel since no cell is ever read for it. -/
theorem C6_metadata_defaults (idx : Nat) (cells : List String) :
    extract_well_info idx none = default_well_info idx ∧
    (default_well_info idx).village = "Unknown" ∧
    (default_well_info idx).latitude = "Unknown" ∧
    (default_well_info idx).longitude = "Unknown" ∧
    (default_well_info idx).block = "Unknown" ∧
    (default_well_info idx).well_id = "well_" ++ toString idx ∧
    (cells.length < 5 → extract_well_info idx (some cells) = default_well_info idx) ∧
    (extract_well_info idx (some cells)).block = "Unknown" ∧
    (5 ≤ cells.length →
      (py_strip (cells.getD 1 "") = "" →
        (extract_well_info idx (some cells)).well_id = "well_" ++ toString idx) ∧
      (py_strip (cells.getD 2 "") = "" →
        (extract_well_info idx (some cells)).village = "Unknown") ∧
      (py_strip (cells.getD 3 "") = "" →
        (extract_well_info idx (some cells)).latitude = "Unknown") ∧
      (py_strip (cells.getD 4 "") = "" →
        (extract_well_info idx (some cells)).longitude = "Unknown")) := by
  refine ⟨rfl, rfl, rfl, rfl, rfl, rfl, ?_, ?_, ?_⟩
  · intro hlt
    simp only [extract_well_info]
    rw [if_neg (fun h => absurd hlt (not_lt.mpr h))]
  · simp only [extract_well_info]
    by_cases h : 5 ≤ cells.length
    · rw [if_pos h]
    · rw [if_neg h]; rfl
  · intro hge
    simp only [extract_well_info]
    rw [if_pos hge]
    refine ⟨fun h => ?_, fun h => ?_, fun h => ?_, fun h => ?_⟩
    · show cell_or (cells.getD 1 "") ("well_" ++ toString idx) =
        "well_" ++ toString idx
      simp only [cell_or]
      rw [if_pos h]
    · show cell_or (cells.getD 2 "") "Unknown" = "Unknown"
      simp only [cell_or]
      rw [if_pos h]
    · show cell_or (cells.getD 3 "") "Unknown" = "Unknown"
      simp only [cell_or]
      rw [if_pos h]
    · show cell_or (cells.getD 4 "") "Unknown" = "Unknown"
      simp only [cell_or]
      rw [if_pos h]

/-- Witness for C6's amended theorem on a 5-cell row of empty cells:
village, latitude and longitude default to Unknown and the identity to
well_3. -/
theorem C6_metadata_defaults_witness :
    (extract_well_info 3 (some ["", "", "", "", ""])).well_id = "well_3" ∧
    (extract_well_info 3 (some ["", "", "", "", ""])).village = "Unknown" ∧
    (extract_well_info 3 (some ["", "", "", "", ""])).latitude = "Unknown" ∧
    (extract_well_info 3 (some ["", "", "", "", ""])).longitude = "Unknown" ∧
    (extract_well_info 3 (some ["", "", "", "", ""])).block = "Unknown" := by
  obtain ⟨-, hblock, hrest⟩ :=
    (C6_metadata_defaults 3 ["", "", "", "", ""]).2.2.2.2.2.2
  obtain ⟨h1, h2, h3, h4⟩ := hrest (by decide)
  exact ⟨h1 (by decide), h2 (by decide), h3 (by decide), h4 (by decide), hblock⟩

/-- The run statistics of scrape_coimbatore_data (stats dict, csv1.py
line 98): wells found, wells downloaded (succeeded), wells failed. -/
structure RunStats where
  wells_found : Nat
  wells_downloaded : Nat
  wells_failed : Nat
deriving DecidableEq, Repr

/-- Outcome of one iteration of the per-well loop (csv1.py lines 182-277),
driven by the environment: the well's radio button has vanished from the
re-rendered table (line 187), processing its downloaded CSV returned True
(line 235) or False (line 238), or the iteration raised a
PlaywrightTimeout (line 270) or another exception (line 274). Every
failing case is caught inside the loop body and the loop continues with
the next index. -/
inductive WellEvent where
  | notFound : WellEvent
  | processedOk : WellEvent
  | processedFail : WellEvent
  | timeout : WellEvent
  | error : WellEvent
deriving DecidableEq, Repr

/-- Whether the iteration's outcome increments wells_downloaded. -/
def is_success (e : WellEvent) : Bool :=
  match e with
  | WellEvent.processedOk => true
  | _ => false

/-- One iteration of the per-well loop: the success outcome increments
wells_downloaded (csv1.py line 237); every other outcome increments
wells_failed (lines 189, 240, 272, 276) and the loop continues. -/
def well_step (s : RunStats) (e : WellEvent) : RunStats :=
  if is_success e then { s with wells_downloaded := s.wells_downloaded + 1 }
  else { s with wells_failed := s.wells_failed + 1 }

/-- The loop over idx in range(1, wells_found + 1) (csv1.py line 182):
wells_found is the number of enumerated radio buttons (line 173), and one
event per enumerated well is processed in enumeration order. -/
def run_wells (events : List WellEvent) : RunStats :=
  events.foldl well_step ⟨events.length, 0, 0⟩

/-- How a scraping run unfolds: the Filter click fails (early return at
csv1.py line 158), no wells are enumerated (return at line 177), or the
enumerated wells are processed one event each. -/
inductive ScrapeRun where
  | filterFailed : ScrapeRun
  | noWells : ScrapeRun
  | wells : List WellEvent → ScrapeRun

/-- Final statistics of scrape_coimbatore_data (csv1.py lines 96-293):
both early returns leave stats at zero; otherwise the per-well loop runs
to completion, each iteration catching its own failures. -/
def scrape_coimbatore_data : ScrapeRun → RunStats
  | ScrapeRun.filterFailed => ⟨0, 0, 0⟩
  | ScrapeRun.noWells => ⟨0, 0, 0⟩
  | ScrapeRun.wells events => run_wells events

/-- Folding the loop from any starting statistics adds the number of
success events to wells_downloaded and the number of non-success events
to wells_failed, leaving wells_found untouched. -/
theorem run_wells_from (events : List WellEvent) :
    ∀ s : RunStats, events.foldl well_step s =
      ⟨s.wells_found,
       s.wells_downloaded + (events.filter is_success).length,
       s.wells_failed + (events.filter (fun e => !(is_success e))).length⟩ := by
  induction events with
  | nil => intro s; simp
  | cons e es ih =>
    intro s
    rw [List.foldl_cons, ih]
    cases hsucc : is_success e <;>
      simp [well_step, hsucc, List.filter_cons, Nat.add_comm, Nat.add_assoc,
        Nat.add_left_comm]

/-- C2: for every extraction run, found equals succeeded plus failed; in
the per-well loop each enumerated well contributes exactly one event, in
enumeration order, each event increments exactly one of the two outcome
counters and never wells_found, failures never stop the fold from counting
later successes, and the early-return runs report exact zeros. -/
theorem C2_run_accounting (events : List WellEvent) :
    (scrape_coimbatore_data (ScrapeRun.wells events)).wells_found =
        events.length ∧
    (scrape_coimbatore_data (ScrapeRun.wells events)).wells_downloaded =
        (events.filter is_success).length ∧
    (scrape_coimbatore_data (ScrapeRun.wells events)).wells_failed =
        (events.filter (fun e => !(is_success e))).length ∧
    (scrape_coimbatore_data (ScrapeRun.wells events)).wells_found =
        (scrape_coimbatore_data (ScrapeRun.wells events)).wells_downloaded +
          (scrape_coimbatore_data (ScrapeRun.wells events)).wells_failed ∧
    (∀ s e, (well_step s e).wells_found = s.wells_found ∧
      (well_step s e).wells_downloaded + (well_step s e).wells_failed =
        s.wells_downloaded + s.wells_failed + 1) ∧
    scrape_coimbatore_data ScrapeRun.filterFailed = ⟨0, 0, 0⟩ ∧
    scrape_coimbatore_data ScrapeRun.noWells = ⟨0, 0, 0⟩ := by
  have hrun : scrape_coimbatore_data (ScrapeRun.wells events) =
      ⟨events.length,
       (events.filter is_success).length,
       (events.filter (fun e => !(is_success e))).length⟩ := by
    show run_wells events = _
    unfold run_wells
    rw [run_wells_from]
    simp
  refine ⟨by rw [hrun], by rw [hrun], by rw [hrun], ?_, ?_, rfl, rfl⟩
  · rw [hrun]
    show events.length = (events.filter is_success).length +
      (events.filter (fun e => !(is_success e))).length
    have := List.length_eq_length_filter_add (l := events) is_success
    omega
  · intro s e
    cases hsucc : is_success e <;>
      simp [well_step, hsucc, Nat.add_assoc, Nat.add_comm, Nat.add_left_comm]

/-- The five metadata column names prepended to the combined header
(csv1.py line 75). -/
def META_HEADER : List String :=
  ["Well_ID", "Village", "Latitude", "Longitude", "Block"]

/-- The five metadata values prepended to each data row
(csv1.py lines 80-86). -/
def meta_fields (w : WellInfo) : List String :=
  [w.well_id, w.village, w.latitude, w.longitude, w.block]

/-- State of the master CSV writer across wells: the shared
headers_written flag (csv1.py line 103) and the rows written so far. -/
structure OutState where
  headers_written : Bool
  out : List (List String)
deriving DecidableEq, Repr

/-- Outcome of handing one downloaded file to process_downloaded_csv
(csv1.py lines 68-93). The try block of lines 70-90 wraps the whole body:
openFail models a failure before the fieldnames are read (open or
DictReader raising) - nothing is written and the call returns False;
midFail hdr written models a failure after the fieldnames were read (a
row raising mid-iteration, or the unlink of line 88 raising) - the
combined header may have been fixed from hdr and the rows written so far
stay in the master CSV, and the call still returns False; ok hdr rows is
full success, returning True. Each row's cells are in that file's own
column order (csv.DictReader yields each row's values in the file's
fieldname order). -/
inductive FileRead where
  | openFail : FileRead
  | midFail : List String → List (List String) → FileRead
  | ok : List String → List (List String) → FileRead
deriving DecidableEq, Repr

/-- A downloaded file handed to process_downloaded_csv together with the
well's metadata. -/
structure FileJob where
  info : WellInfo
  res : FileRead
deriving DecidableEq, Repr

/-- process_downloaded_csv (csv1.py lines 68-93): on the first file whose
fieldnames are read the combined header row META_HEADER ++ that file's
own header is written and headers_written is set (lines 74-77), whether
or not that file later fails; every row written before the call returns
is the five metadata values followed by the row's cells in the file's
own positional order (lines 79-86), with no per-column re-mapping against
the combined header. Returns True only on full success. -/
def process_downloaded_csv (st : OutState) (j : FileJob) : OutState × Bool :=
  match j.res with
  | FileRead.openFail => (st, false)
  | FileRead.midFail hdr written =>
    let st1 : OutState :=
      if st.headers_written then st
      else ⟨true, st.out ++ [META_HEADER ++ hdr]⟩
    (⟨st1.headers_written, st1.out ++ written.map (fun r => meta_fields j.info ++ r)⟩,
      false)
  | FileRead.ok hdr rows =>
    let st1 : OutState :=
      if st.headers_written then st
      else ⟨true, st.out ++ [META_HEADER ++ hdr]⟩
    (⟨st1.headers_written, st1.out ++ rows.map (fun r => meta_fields j.info ++ r)⟩,
      true)

/-- The scrape loop's sequence of process_downloaded_csv calls over the
run's files, starting from an empty master CSV with headers_written =
False (csv1.py lines 100-103, 235). -/
def process_all_files (jobs : List FileJob) : OutState :=
  jobs.foldl (fun st j => (process_downloaded_csv st j).1) ⟨false, []⟩

/-- The data rows the whole run appends: for each file, the rows it
managed to write (all rows of a successful file, the written prefix of a
mid-read failure), prefixed with that well's metadata, in file order; no
file's own header is consulted. -/
def written_rows : List FileJob → List (List String)
  | [] => []
  | j :: js =>
    (match j.res with
     | FileRead.openFail => []
     | FileRead.midFail _ written => written.map (fun r => meta_fields j.info ++ r)
     | FileRead.ok _ rows => rows.map (fun r => meta_fields j.info ++ r)) ++
      written_rows js

/-- The header the run's combined output is actually fixed by: the header
of the first file whose fieldnames were read - successful or not. -/
def first_read_header : List FileJob → Option (List String)
  | [] => none
  | j :: js =>
    match j.res with
    | FileRead.openFail => first_read_header js
    | FileRead.midFail hdr _ => some hdr
    | FileRead.ok hdr _ => some hdr

/-- Once the header is written, further files only append their written,
metadata prefixed data rows. -/
theorem process_all_from_written (jobs : List FileJob) :
    ∀ out : List (List String),
      jobs.foldl (fun st j => (process_downloaded_csv st j).1) ⟨true, out⟩ =
        ⟨true, out ++ written_rows jobs⟩ := by
  induction jobs with
  | nil => intro out; simp [written_rows]
  | cons j js ih =>
    intro out
    rw [List.foldl_cons]
    cases hres : j.res with
    | openFail =>
      have hstep : (process_downloaded_csv ⟨true, out⟩ j).1 = (⟨true, out⟩ : OutState) := by
        simp [process_downloaded_csv, hres]
      show List.foldl (fun st j => (process_downloaded_csv st j).1)
          ((process_downloaded_csv ⟨true, out⟩ j).1) js = _
      rw [hstep, ih]
      simp [written_rows, hres]
    | midFail hdr written =>
      have hstep : (process_downloaded_csv ⟨true, out⟩ j).1 =
          (⟨true, out ++ written.map (fun r => meta_fields j.info ++ r)⟩ : OutState) := by
        simp [process_downloaded_csv, hres]
      show List.foldl (fun st j => (process_downloaded_csv st j).1)
          ((process_downloaded_csv ⟨true, out⟩ j).1) js = _
      rw [hstep, ih]
      simp [written_rows, hres, List.append_assoc]
    | ok hdr rows =>
      have hstep : (process_downloaded_csv ⟨true, out⟩ j).1 =
          (⟨true, out ++ rows.map (fun r => meta_fields j.info ++ r)⟩ : OutState) := by
        simp [process_downloaded_csv, hres]
      show List.foldl (fun st j => (process_downloaded_csv st j).1)
          ((process_downloaded_csv ⟨true, out⟩ j).1) js = _
      rw [hstep, ih]
      simp [written_rows, hres, List.append_assoc]

/-- C7 counterexample: a run whose first file fails mid-read (after its
fieldnames Date, Water Level were read and one row was written) and whose
second file succeeds with its own header ordered Water Level, Date. The
first call returns False and the second True, yet the combined output
header is the five metadata columns followed by the FAILED file's header,
not the first successful file's, and the failed file's partial row sits
in the output - refuting the claim that the first successfully processed
file fixes the header. -/
theorem C7_counterexample :
    (process_downloaded_csv ⟨false, []⟩
        ⟨default_well_info 1,
          FileRead.midFail ["Date", "Water Level"] [["2025-01-10", "5.2"]]⟩).2 =
      false ∧
    (process_downloaded_csv
        (process_downloaded_csv ⟨false, []⟩
          ⟨default_well_info 1,
            FileRead.midFail ["Date", "Water Level"] [["2025-01-10", "5.2"]]⟩).1
        ⟨default_well_info 2,
          FileRead.ok ["Water Level", "Date"] [["6.0", "2025-04-14"]]⟩).2 = true ∧
    (process_downloaded_csv
        (process_downloaded_csv ⟨false, []⟩
          ⟨default_well_info 1,
            FileRead.midFail ["Date", "Water Level"] [["2025-01-10", "5.2"]]⟩).1
        ⟨default_well_info 2,
          FileRead.ok ["Water Level", "Date"] [["6.0", "2025-04-14"]]⟩).1.out =
      [META_HEADER ++ ["Date", "Water Level"],
       meta_fields (default_well_info 1) ++ ["2025-01-10", "5.2"],
       meta_fields (default_well_info 2) ++ ["6.0", "2025-04-14"]] ∧
    META_HEADER ++ ["Date", "Water Level"] ≠
      META_HEADER ++ ["Water Level", "Date"] := by
  refine ⟨rfl, rfl, by decide, by decide⟩

/-- C7 amended: the combined output header is fixed by the first file
whose fieldnames are read - even when that file then fails mid-read - as
the five metadata columns followed by that file's own header; after it,
every file's written rows (all rows of successful files, the written
prefix of mid-read failures) are appended positionally beneath that one
fixed header, prefixed with the well's metadata, regardless of any
file's own header ordering; and a call reports success (True) exactly on
a full read. -/
theorem C7_header_fixed_by_first_read (jobs : List FileJob) :
    ((process_all_files jobs).out =
      (match first_read_header jobs with
       | none => ([] : List (List String))
       | some hdr => [META_HEADER ++ hdr]) ++ written_rows jobs) ∧
    ∀ (st : OutState) (j : FileJob),
      (process_downloaded_csv st j).2 =
        (match j.res with
         | FileRead.ok _ _ => true
         | _ => false) := by
  constructor
  · unfold process_all_files
    induction jobs with
    | nil => rfl
    | cons j js ih =>
      rw [List.foldl_cons]
      cases hres : j.res with
      | openFail =>
        have hstep : (process_downloaded_csv ⟨false, []⟩ j).1 = (⟨false, []⟩ : OutState) := by
          simp [process_downloaded_csv, hres]
        show (List.foldl (fun st j => (process_downloaded_csv st j).1)
            ((process_downloaded_csv ⟨false, []⟩ j).1) js).out = _
        rw [hstep, ih]
        simp [first_read_header, written_rows, hres]
      | midFail hdr written =>
        have hstep : (process_downloaded_csv ⟨false, []⟩ j).1 =
            (⟨true, (META_HEADER ++ hdr) :: written.map (fun r => meta_fields j.info ++ r)⟩ :
              OutState) := by
          simp [process_downloaded_csv, hres]
        show (List.foldl (fun st j => (process_downloaded_csv st j).1)
            ((process_downloaded_csv ⟨false, []⟩ j).1) js).out = _
        rw [hstep]
        have hw := process_all_from_written js
          ((META_HEADER ++ hdr) :: written.map (fun r => meta_fields j.info ++ r))
        rw [hw]
        simp [first_read_header, written_rows, hres, List.append_assoc]
      | ok hdr rows =>
        have hstep : (process_downloaded_csv ⟨false, []⟩ j).1 =
            (⟨true, (META_HEADER ++ hdr) :: rows.map (fun r => meta_fields j.info ++ r)⟩ :
              OutState) := by
          simp [process_downloaded_csv, hres]
        show (List.foldl (fun st j => (process_downloaded_csv st j).1)
            ((process_downloaded_csv ⟨false, []⟩ j).1) js).out = _
        rw [hstep]
        have hw := process_all_from_written js
          ((META_HEADER ++ hdr) :: rows.map (fun r => meta_fields j.info ++ r))
        rw [hw]
        simp [first_read_header, written_rows, hres, List.append_assoc]
  · intro st j
    cases hres : j.res <;> simp [process_downloaded_csv, hres]

/-- One CSV cell as pandas reads it, abstracted by how Python handles it:
na is a missing value (pd.isna true, pd.notna false); unknown is the
literal sentinel string "Unknown"; num q is a cell that Python's float()
converts to the number q; strOther s is any other string, on which
float() raises ValueError. Rationals stand in for Python floats; none of
the verified properties depends on rounding. -/
inductive Cell where
  | na : Cell
  | unknown : Cell
  | num : Rat → Cell
  | strOther : String → Cell
deriving DecidableEq, Repr

/-- Python float() on a cell: succeeds exactly on numeric content, raises
(none) on the sentinel and on other non-numeric strings. The na case is
unreachable in the modelled code paths, which all test pd.notna first. -/
def py_float : Cell → Option Rat
  | Cell.num q => some q
  | _ => none

/-- One side of the coordinates lambda of merge_well_readings (csv1.py
lines 435-436): None when the cell is the Unknown sentinel, float(cell)
otherwise (the guard pd.notna(cell) and cell != "Unknown" is evaluated
before float is called); Except.error models float() raising. -/
def coord_component (c : Cell) : Except Unit (Option Rat) :=
  if c ≠ Cell.na ∧ c ≠ Cell.unknown then
    match py_float c with
    | some q => Except.ok (some q)
    | none => Except.error ()
  else Except.ok none

/-- The coordinates column derivation of merge_well_readings (csv1.py
lines 432-439): when either Latitude or Longitude is missing (NaN) the
pair is [None, None]; otherwise each component is None when that cell is
the Unknown sentinel and float(cell) otherwise, latitude evaluated before
longitude. -/
def row_coordinates (lat lon : Cell) : Except Unit (Option Rat × Option Rat) :=
  if lat = Cell.na ∨ lon = Cell.na then Except.ok (none, none)
  else do
    let a ← coord_component lat
    let b ← coord_component lon
    pure (a, b)

/-- C5 counterexample: a row whose Latitude is the Unknown sentinel while
its Longitude is the number 76 gets the combined pair (absent, 76), not
(absent, absent) as the claim states; and a row with an unparseable
non-sentinel Latitude makes the derivation raise instead of yielding
(absent, absent). -/
theorem C5_counterexample :
    row_coordinates Cell.unknown (Cell.num 76) =
      Except.ok (none, some (76 : Rat)) ∧
    Except.ok ((none : Option Rat), some (76 : Rat)) ≠
      (Except.ok (none, none) : Except Unit (Option Rat × Option Rat)) ∧
    row_coordinates (Cell.strOther "abc") (Cell.num 76) = Except.error () := by
  refine ⟨rfl, by simp, rfl⟩

/-- C5 amended: if either coordinate is missing (NaN) the combined field
is (absent, absent); otherwise each component independently is absent
exactly when that coordinate is the Unknown sentinel, is the numeric
value when parseable, and a non-sentinel unparseable coordinate raises a
per-record error instead of producing an absent component. -/
theorem C5_combined_position (q p : Rat) (s : String) (c : Cell) :
    row_coordinates Cell.na c = Except.ok (none, none) ∧
    row_coordinates c Cell.na = Except.ok (none, none) ∧
    row_coordinates (Cell.num q) (Cell.num p) = Except.ok (some q, some p) ∧
    row_coordinates Cell.unknown (Cell.num p) = Except.ok (none, some p) ∧
    row_coordinates (Cell.num q) Cell.unknown = Except.ok (some q, none) ∧
    row_coordinates Cell.unknown Cell.unknown = Except.ok (none, none) ∧
    row_coordinates (Cell.strOther s) (Cell.num p) = Except.error () ∧
    row_coordinates (Cell.num q) (Cell.strOther s) = Except.error () ∧
    row_coordinates Cell.unknown (Cell.strOther s) = Except.error () := by
  refine ⟨rfl, ?_, rfl, rfl, rfl, rfl, rfl, rfl, rfl⟩
  cases c <;> rfl

/-- Month abbreviation as strftime("%b") renders it (csv1.py line 407). -/
def month_name : Nat → String
  | 1 => "Jan"
  | 2 => "Feb"
  | 3 => "Mar"
  | 4 => "Apr"
  | 5 => "May"
  | 6 => "Jun"
  | 7 => "Jul"
  | 8 => "Aug"
  | 9 => "Sep"
  | 10 => "Oct"
  | 11 => "Nov"
  | 12 => "Dec"
  | _ => ""

/-- month_order of merge_well_readings (csv1.py line 427): the window's
declared order, not alphabetical. -/
def MONTH_ORDER : List String := ["Jan", "Apr", "Aug", "Nov"]

/-- One row of the filtered CSV as merge_well_readings uses it for the
column layout: the well and the month of its parsed Date (line 407). The
measured Water Level value is assumed present (non-null), as the filter
stage produces it; only the month matters for which columns exist. -/
structure MRow where
  well : String
  month : Nat
deriving DecidableEq, Repr

/-- String order as a relation for sorting pandas column labels. -/
def strLe (a b : String) : Prop := a ≤ b

instance : DecidableRel strLe :=
  fun a b => inferInstanceAs (Decidable (a ≤ b))

/-- The column labels of the pivot_table of csv1.py lines 417-422: pandas
builds the column index from the distinct MonthName values and sorts it
(alphabetically for strings). -/
def pivot_month_cols (rows : List MRow) : List String :=
  List.insertionSort strLe ((rows.map (fun r => month_name r.month)).dedup)

/-- metadata_cols of csv1.py lines 409-415: Well_ID, then Village,
Latitude/Longitude and Block when those columns exist in the input. -/
def metadata_cols_of (hasVillage hasCoords hasBlock : Bool) : List String :=
  ["Well_ID"] ++
    (if hasVillage then ["Village"] else []) ++
    (if hasCoords then ["Latitude", "Longitude"] else []) ++
    (if hasBlock then ["Block"] else [])

/-- The column sequence merge_well_readings fixes at the reindex of
csv1.py lines 427-430: the merged dataframe's columns are the metadata
columns followed by the pivot's month columns (lines 424-425), and
existing_months keeps the months of month_order that occur among those
columns, in month_order's order; final_cols is metadata plus those. (The
later lines 432-439 only append the derived coordinates column after
these.) -/
def merged_cols (hasVillage hasCoords hasBlock : Bool) (rows : List MRow) :
    List String :=
  let meta := metadata_cols_of hasVillage hasCoords hasBlock
  let dfCols := meta ++ pivot_month_cols rows
  meta ++ MONTH_ORDER.filter (fun m => dfCols.contains m)

/-- No metadata column is named like a window month. -/
theorem metadata_not_month (hv hc hb : Bool) :
    ∀ m ∈ MONTH_ORDER,
      (metadata_cols_of hv hc hb).contains m = false := by
  cases hv <;> cases hc <;> cases hb <;> decide

/-- C8: the column sequence fixed by the pivot stage is exactly the
metadata columns followed by the window months Jan, Apr, Aug, Nov in that
declared order restricted to the months present in at least one filtered
reading - the alphabetical order of the pandas pivot column index never
shows through, and no other column appears among these. -/
theorem C8_pivot_columns (hv hc hb : Bool) (rows : List MRow) :
    merged_cols hv hc hb rows =
      metadata_cols_of hv hc hb ++
        MONTH_ORDER.filter
          (fun m => (rows.map (fun r => month_name r.month)).contains m) := by
  unfold merged_cols
  show metadata_cols_of hv hc hb ++
      MONTH_ORDER.filter
        (fun m => (metadata_cols_of hv hc hb ++ pivot_month_cols rows).contains m) =
    metadata_cols_of hv hc hb ++
      MONTH_ORDER.filter
        (fun m => (rows.map (fun r => month_name r.month)).contains m)
  congr 1
  apply List.filter_congr
  intro m hm
  have hmeta := metadata_not_month hv hc hb m hm
  have happ :
      (metadata_cols_of hv hc hb ++ pivot_month_cols rows).contains m =
        ((metadata_cols_of hv hc hb).contains m ||
          (pivot_month_cols rows).contains m) := by
    simp [List.contains_eq_any_beq, List.any_append]
  rw [happ, hmeta, Bool.false_or]
  apply Bool.coe_iff_coe.mp
  rw [containsb_iff, containsb_iff]
  unfold pivot_month_cols
  exact ((List.perm_insertionSort strLe _).mem_iff).trans List.mem_dedup

/-- The document built for one well (well_doc of csv1.py lines 521-538 and
mongo.py lines 107-126): wellId, village, latitude, longitude and
coordinates are always present; the four month fields are present (some)
only when the corresponding CSV cell is present and not NaN, matching the
keys the $set document carries. -/
structure WellDoc where
  wellId : String
  village : String
  latitude : Rat
  longitude : Rat
  coordinates : Rat × Rat
  january : Option Rat
  april : Option Rat
  august : Option Rat
  november : Option Rat
deriving DecidableEq, Repr

/-- One wide row of the merged CSV as the importers read it. The
coordinates field models the optional coordinates column together with
the outcome of parse_coordinates on it: none = column absent or cell NaN
(pd.notna false), some none = present but parse_coordinates returns None,
some (some p) = parses to the pair p. -/
structure WRow where
  well_id : Cell
  village : Cell
  latitude : Cell
  longitude : Cell
  jan : Cell
  apr : Cell
  aug : Cell
  nov : Cell
  coordinates : Option (Option (Rat × Rat))
deriving DecidableEq, Repr

/-- Python str() of a cell, as used for wellId and village. -/
def cell_str : Cell → String
  | Cell.na => "nan"
  | Cell.unknown => "Unknown"
  | Cell.num q => toString q
  | Cell.strOther s => s

/-- The skip test applied to a cell: pd.isna(cell) or cell == "Unknown"
(csv1.py lines 497-507, mongo.py lines 79-88). -/
def is_missing_or_unknown (c : Cell) : Bool :=
  match c with
  | Cell.na => true
  | Cell.unknown => true
  | _ => false

/-- One month field of the document: some none when the cell is absent or
NaN (the key is omitted, no error), some (some q) when float() succeeds,
none when float() raises (counted as a per-record error). -/
def month_val (c : Cell) : Option (Option Rat) :=
  match c with
  | Cell.na => some none
  | Cell.num q => some (some q)
  | _ => none

/-- The persistence key of a row: str(row["Well_ID"]). -/
def wrow_key (r : WRow) : String := cell_str r.well_id

/-- Building well_doc for a row that passed the skip checks (csv1.py
lines 512-538, mongo.py lines 93-126): float(Latitude), float(Longitude),
the coordinates pair from parse_coordinates with [lat, lon] as fallback,
and one optional float per month column. none models float() raising,
which the per-record except converts into an errors count. -/
def build_doc (r : WRow) : Option WellDoc :=
  match py_float r.latitude, py_float r.longitude, month_val r.jan,
      month_val r.apr, month_val r.aug, month_val r.nov with
  | some lat, some lon, some jan, some apr, some aug, some nov =>
    some
      { wellId := wrow_key r
        village := cell_str r.village
        latitude := lat
        longitude := lon
        coordinates :=
          match r.coordinates with
          | some (some p) => p
          | _ => (lat, lon)
        january := jan
        april := apr
        august := aug
        november := nov }
  | _, _, _, _, _, _ => none

/-- Lookup in the collection by the unique wellId key. -/
def find_doc (store : List WellDoc) (k : String) : Option WellDoc :=
  store.find? (fun d => d.wellId == k)

/-- MongoDB's $set applied to an existing document: the always-present
fields are overwritten; a month key absent from the update document keeps
the stored value. -/
def apply_set (old newDoc : WellDoc) : WellDoc :=
  { wellId := newDoc.wellId
    village := newDoc.village
    latitude := newDoc.latitude
    longitude := newDoc.longitude
    coordinates := newDoc.coordinates
    january := newDoc.january <|> old.january
    april := newDoc.april <|> old.april
    august := newDoc.august <|> old.august
    november := newDoc.november <|> old.november }

/-- collection.update_one({wellId}, {$set: doc}, upsert=True): returns
the new store, whether a document was upserted (inserted), and whether an
existing document was modified (modified_count > 0, i.e. the $set
changed it). -/
def update_one (store : List WellDoc) (doc : WellDoc) :
    List WellDoc × Bool × Bool :=
  match find_doc store doc.wellId with
  | none => (store ++ [doc], true, false)
  | some old =>
    let merged := apply_set old doc
    (store.map (fun d => if d.wellId == doc.wellId then merged else d),
      false, decide (merged ≠ old))

/-- The upsert statistics of csv1.py import_well_data (lines 487-493). -/
structure UpStats where
  inserted : Nat
  updated : Nat
  unchanged : Nat
  skipped : Nat
  errors : Nat
deriving DecidableEq, Repr

/-- The upsert statistics of mongo.py import_well_data (lines 69-74),
which has no unchanged class. -/
structure UpStatsL where
  inserted : Nat
  updated : Nat
  skipped : Nat
  errors : Nat
deriving DecidableEq, Repr

/-- Whether the row is skipped before any write: Unknown or missing
latitude, longitude, or village (csv1.py lines 497-510, mongo.py
lines 79-91). -/
def skip_row (r : WRow) : Bool :=
  is_missing_or_unknown r.latitude || is_missing_or_unknown r.longitude ||
    is_missing_or_unknown r.village

/-- One iteration of csv1.py import_well_data (lines 495-560): skip on
Unknown or missing coordinates (lines 497-505) or village (lines
507-510); a raising float() is caught and counted as an error (lines
558-560); otherwise update_one classifies the row as inserted (upserted),
updated (modified_count > 0) or unchanged (lines 540-553). -/
def import_step (acc : List WellDoc × UpStats) (r : WRow) :
    List WellDoc × UpStats :=
  let store := acc.1
  let stats := acc.2
  if is_missing_or_unknown r.latitude || is_missing_or_unknown r.longitude then
    (store, { stats with skipped := stats.skipped + 1 })
  else if is_missing_or_unknown r.village then
    (store, { stats with skipped := stats.skipped + 1 })
  else
    match build_doc r with
    | none => (store, { stats with errors := stats.errors + 1 })
    | some doc =>
      match update_one store doc with
      | (store2, upserted, modified) =>
        if upserted then
          (store2, { stats with inserted := stats.inserted + 1 })
        else if modified then
          (store2, { stats with updated := stats.updated + 1 })
        else
          (store2, { stats with unchanged := stats.unchanged + 1 })

/-- csv1.py import_well_data over a whole CSV against a given store
state: statistics start at zero and each row is processed in order. -/
def import_well_data (store : List WellDoc) (rows : List WRow) :
    List WellDoc × UpStats :=
  rows.foldl import_step (store, ⟨0, 0, 0, 0, 0⟩)

/-- One iteration of mongo.py import_well_data (lines 76-149): the same
skip and error handling, but the outcome of update_one is classified as
inserted when a document was upserted and as updated otherwise
(lines 135-140) - modified_count is never consulted, so there is no
unchanged class. -/
def import_step_legacy (acc : List WellDoc × UpStatsL) (r : WRow) :
    List WellDoc × UpStatsL :=
  let store := acc.1
  let stats := acc.2
  if is_missing_or_unknown r.latitude || is_missing_or_unknown r.longitude then
    (store, { stats with skipped := stats.skipped + 1 })
  else if is_missing_or_unknown r.village then
    (store, { stats with skipped := stats.skipped + 1 })
  else
    match build_doc r with
    | none => (store, { stats with errors := stats.errors + 1 })
    | some doc =>
      match update_one store doc with
      | (store2, upserted, _) =>
        if upserted then
          (store2, { stats with inserted := stats.inserted + 1 })
        else
          (store2, { stats with updated := stats.updated + 1 })

/-- mongo.py import_well_data over a whole CSV against a given store. -/
def import_well_data_legacy (store : List WellDoc) (rows : List WRow) :
    List WellDoc × UpStatsL :=
  rows.foldl import_step_legacy (store, ⟨0, 0, 0, 0⟩)

/-- A skipped row leaves the store untouched and only bumps skipped
(csv1.py). -/
theorem step_skip (store : List WellDoc) (stats : UpStats) (r : WRow)
    (h : skip_row r = true) :
    import_step (store, stats) r =
      (store, { stats with skipped := stats.skipped + 1 }) := by
  unfold skip_row at h
  by_cases h1 : (is_missing_or_unknown r.latitude ||
      is_missing_or_unknown r.longitude) = true
  · simp [import_step, h1]
  · have h1f : (is_missing_or_unknown r.latitude ||
        is_missing_or_unknown r.longitude) = false := by
      simpa using h1
    have h2 : is_missing_or_unknown r.village = true := by
      rw [h1f] at h
      simpa using h
    simp [import_step, h1f, h2]

/-- A skipped row leaves the store untouched and only bumps skipped
(mongo.py). -/
theorem step_skip_legacy (store : List WellDoc) (stats : UpStatsL) (r : WRow)
    (h : skip_row r = true) :
    import_step_legacy (store, stats) r =
      (store, { stats with skipped := stats.skipped + 1 }) := by
  unfold skip_row at h
  by_cases h1 : (is_missing_or_unknown r.latitude ||
      is_missing_or_unknown r.longitude) = true
  · simp [import_step_legacy, h1]
  · have h1f : (is_missing_or_unknown r.latitude ||
        is_missing_or_unknown r.longitude) = false := by
      simpa using h1
    have h2 : is_missing_or_unknown r.village = true := by
      rw [h1f] at h
      simpa using h
    simp [import_step_legacy, h1f, h2]

/-- C3: for every input record whose latitude, longitude or display name
(village) is the sentinel Unknown or missing, neither importer writes to
the store: the row is skipped, the skipped counter alone is incremented,
and inserted and updated (and every other counter) stay unchanged, in
csv1.py's importer and in mongo.py's alike. -/
theorem C3_incomplete_rows_skipped (store : List WellDoc) (stats : UpStats)
    (statsL : UpStatsL) (r : WRow)
    (h : (is_missing_or_unknown r.latitude || is_missing_or_unknown r.longitude ||
      is_missing_or_unknown r.village) = true) :
    import_step (store, stats) r =
      (store, { stats with skipped := stats.skipped + 1 }) ∧
    import_step_legacy (store, statsL) r =
      (store, { statsL with skipped := statsL.skipped + 1 }) :=
  ⟨step_skip store stats r h, step_skip_legacy store statsL r h⟩

/-- Witness for C3: a record whose village is the Unknown sentinel is
skipped by both importers without touching an empty store. -/
theorem C3_incomplete_rows_skipped_witness :
    import_step ([], ⟨0, 0, 0, 0, 0⟩)
        ⟨Cell.strOther "W9", Cell.unknown, Cell.num 10, Cell.num 76,
          Cell.na, Cell.na, Cell.na, Cell.na, none⟩ =
      ([], ⟨0, 0, 0, 1, 0⟩) ∧
    import_step_legacy ([], ⟨0, 0, 0, 0⟩)
        ⟨Cell.strOther "W9", Cell.unknown, Cell.num 10, Cell.num 76,
          Cell.na, Cell.na, Cell.na, Cell.na, none⟩ =
      ([], ⟨0, 0, 1, 0⟩) :=
  C3_incomplete_rows_skipped [] ⟨0, 0, 0, 0, 0⟩ ⟨0, 0, 0, 0⟩
    ⟨Cell.strOther "W9", Cell.unknown, Cell.num 10, Cell.num 76,
      Cell.na, Cell.na, Cell.na, Cell.na, none⟩ (by decide)

/-- Option alternatives: orElse of a value with itself. -/
theorem orElse_self (o : Option Rat) : (o <|> o) = o := by
  cases o <;> rfl

/-- Option alternatives: orElse absorbs a repeated first choice. -/
theorem orElse_absorb (a b : Option Rat) : (a <|> (a <|> b)) = (a <|> b) := by
  cases a <;> rfl

/-- $set applied twice with the same document is as good as once. -/
theorem apply_set_idem (old d : WellDoc) :
    apply_set (apply_set old d) d = apply_set old d := by
  show ({ wellId := d.wellId
          village := d.village
          latitude := d.latitude
          longitude := d.longitude
          coordinates := d.coordinates
          january := d.january <|> (d.january <|> old.january)
          april := d.april <|> (d.april <|> old.april)
          august := d.august <|> (d.august <|> old.august)
          november := d.november <|> (d.november <|> old.november) } : WellDoc) =
      apply_set old d
  rw [orElse_absorb, orElse_absorb, orElse_absorb, orElse_absorb]
  rfl

/-- $set of a freshly inserted document changes nothing. -/
theorem apply_set_self (d : WellDoc) : apply_set d d = d := by
  unfold apply_set
  rw [orElse_self, orElse_self, orElse_self, orElse_self]

/-- The wellId written by apply_set is the update document's key. -/
theorem apply_set_wellId (old d : WellDoc) :
    (apply_set old d).wellId = d.wellId := rfl

/-- A built document is keyed by str(row["Well_ID"]). -/
theorem build_doc_key {r : WRow} {d : WellDoc}
    (h : build_doc r = some d) : d.wellId = wrow_key r := by
  unfold build_doc at h
  split at h
  · cases h
    rfl
  · cases h

/-- The documents of one key inside the store. -/
def key_docs (store : List WellDoc) (k : String) : List WellDoc :=
  store.filter (fun d => d.wellId == k)

/-- A row's update leaves the store in a state where re-applying the same
document changes nothing: the key is present, and $set fixes every stored
document of that key. -/
def key_stable (store : List WellDoc) (d : WellDoc) : Prop :=
  key_docs store d.wellId ≠ [] ∧
    ∀ x ∈ key_docs store d.wellId, apply_set x d = x

/-- Membership in key_docs. -/
theorem mem_key_docs {store : List WellDoc} {k : String} {x : WellDoc} :
    x ∈ key_docs store k ↔ (x ∈ store ∧ x.wellId = k) := by
  unfold key_docs
  rw [List.mem_filter]
  simp

/-- find_doc misses exactly when no stored document has the key. -/
theorem find_doc_eq_none_iff {store : List WellDoc} {k : String} :
    find_doc store k = none ↔ key_docs store k = [] := by
  unfold find_doc key_docs
  rw [List.find?_eq_none, List.filter_eq_nil_iff]

/-- A row that builds no document is counted as an error and writes
nothing. -/
theorem step_error (store : List WellDoc) (stats : UpStats) (r : WRow)
    (hskip : skip_row r = false) (hdoc : build_doc r = none) :
    import_step (store, stats) r =
      (store, { stats with errors := stats.errors + 1 }) := by
  unfold skip_row at hskip
  have h1 : (is_missing_or_unknown r.latitude ||
      is_missing_or_unknown r.longitude) = false := by
    rcases Bool.or_eq_false_iff.mp hskip with ⟨h12, _⟩
    exact h12
  have h2 : is_missing_or_unknown r.village = false :=
    (Bool.or_eq_false_iff.mp hskip).2
  simp [import_step, h1, h2, hdoc]

/-- A good row whose key is absent is inserted: the document is appended
and only inserted is bumped. -/
theorem step_notfound (store : List WellDoc) (stats : UpStats) (r : WRow)
    (doc : WellDoc) (hskip : skip_row r = false)
    (hdoc : build_doc r = some doc)
    (hfind : find_doc store doc.wellId = none) :
    import_step (store, stats) r =
      (store ++ [doc], { stats with inserted := stats.inserted + 1 }) := by
  unfold skip_row at hskip
  have h1 : (is_missing_or_unknown r.latitude ||
      is_missing_or_unknown r.longitude) = false :=
    (Bool.or_eq_false_iff.mp hskip).1
  have h2 : is_missing_or_unknown r.village = false :=
    (Bool.or_eq_false_iff.mp hskip).2
  simp [import_step, h1, h2, hdoc, update_one, hfind]

/-- A good row whose key is present updates in place: every stored
document of the key becomes the $set result, and the row is classified
updated or unchanged according to whether the $set changed the found
document. -/
theorem step_found (store : List WellDoc) (stats : UpStats) (r : WRow)
    (doc old : WellDoc) (hskip : skip_row r = false)
    (hdoc : build_doc r = some doc)
    (hfind : find_doc store doc.wellId = some old) :
    import_step (store, stats) r =
      (store.map (fun d => if d.wellId == doc.wellId then apply_set old doc else d),
       if apply_set old doc = old then
         { stats with unchanged := stats.unchanged + 1 }
       else { stats with updated := stats.updated + 1 }) := by
  unfold skip_row at hskip
  have h1 : (is_missing_or_unknown r.latitude ||
      is_missing_or_unknown r.longitude) = false :=
    (Bool.or_eq_false_iff.mp hskip).1
  have h2 : is_missing_or_unknown r.village = false :=
    (Bool.or_eq_false_iff.mp hskip).2
  by_cases heq : apply_set old doc = old
  · simp [import_step, h1, h2, hdoc, update_one, hfind, heq]
  · simp [import_step, h1, h2, hdoc, update_one, hfind, heq]

/-- Appending a document of another key leaves a key's documents alone. -/
theorem key_docs_append_other (store : List WellDoc) (d : WellDoc) (k : String)
    (hk : d.wellId ≠ k) :
    key_docs (store ++ [d]) k = key_docs store k := by
  unfold key_docs
  rw [List.filter_append]
  have hnil : [d].filter (fun x => x.wellId == k) = [] := by
    simp [hk]
  rw [hnil, List.append_nil]

/-- Inserting a fresh document makes it the key's only document. -/
theorem key_docs_append_self (store : List WellDoc) (doc : WellDoc)
    (hnone : find_doc store doc.wellId = none) :
    key_docs (store ++ [doc]) doc.wellId = [doc] := by
  have h1 : key_docs store doc.wellId = [] := find_doc_eq_none_iff.mp hnone
  unfold key_docs at h1 ⊢
  rw [List.filter_append, h1]
  simp

/-- The in-place update of one key leaves every other key's documents
alone. -/
theorem key_docs_map_other (store : List WellDoc) (doc merged : WellDoc)
    (k : String) (hmerged : merged.wellId = doc.wellId) (hk : k ≠ doc.wellId) :
    key_docs
        (store.map (fun d => if d.wellId == doc.wellId then merged else d)) k =
      key_docs store k := by
  unfold key_docs
  induction store with
  | nil => rfl
  | cons x xs ih =>
    by_cases hx : (x.wellId == doc.wellId) = true
    · have hfx : (if x.wellId == doc.wellId then merged else x) = merged := if_pos hx
      have hmk : (merged.wellId == k) = false := by
        simp only [beq_eq_false_iff_ne, ne_eq, hmerged]
        exact fun h => hk h.symm
      have hxk : (x.wellId == k) = false := by
        simp only [beq_eq_false_iff_ne, ne_eq, beq_iff_eq.mp hx]
        exact fun h => hk h.symm
      rw [List.map_cons, hfx, List.filter_cons, List.filter_cons, hmk, hxk, ih]
      simp
    · have hfx : (if x.wellId == doc.wellId then merged else x) = x := if_neg hx
      rw [List.map_cons, hfx, List.filter_cons, List.filter_cons, ih]

/-- After the in-place update, every document of the updated key equals
the $set result. -/
theorem key_docs_map_self_all (store : List WellDoc) (doc merged : WellDoc) :
    ∀ x ∈ key_docs
        (store.map (fun d => if d.wellId == doc.wellId then merged else d))
        doc.wellId, x = merged := by
  intro x hx
  obtain ⟨hmem, hkey⟩ := mem_key_docs.mp hx
  obtain ⟨y, hy, hfy⟩ := List.mem_map.mp hmem
  by_cases hc : (y.wellId == doc.wellId) = true
  · rw [← hfy, if_pos hc]
  · exfalso
    rw [← hfy] at hkey
    rw [if_neg hc] at hkey
    exact hc (beq_iff_eq.mpr hkey)

/-- The $set result is present at the updated key after the in-place
update, provided the key was found. -/
theorem key_docs_map_self_mem (store : List WellDoc) (doc old merged : WellDoc)
    (hfind : find_doc store doc.wellId = some old)
    (hm : merged.wellId = doc.wellId) :
    merged ∈ key_docs
      (store.map (fun d => if d.wellId == doc.wellId then merged else d))
      doc.wellId := by
  have hfind2 : store.find? (fun d => d.wellId == doc.wellId) = some old := hfind
  have hmem : old ∈ store := List.mem_of_find?_eq_some hfind2
  have hpred : (old.wellId == doc.wellId) = true := by
    have h := List.find?_some hfind2
    simpa using h
  refine mem_key_docs.mpr ⟨?_, hm⟩
  have hm2 : (if old.wellId == doc.wellId then merged else old) = merged :=
    if_pos hpred
  have h3 := List.mem_map_of_mem
    (fun d => if d.wellId == doc.wellId then merged else d) hmem
  simp only [] at h3
  rw [hm2] at h3
  exact h3

/-- Stability only depends on the key's documents. -/
theorem key_stable_of_eq {s1 s2 : List WellDoc} {d : WellDoc}
    (he : key_docs s1 d.wellId = key_docs s2 d.wellId)
    (h : key_stable s2 d) : key_stable s1 d := by
  unfold key_stable at h ⊢
  rw [he]
  exact h

/-- A step at a row whose document has a different key (or no document)
leaves a key's documents untouched. -/
theorem step_store_other_keys (store : List WellDoc) (stats : UpStats)
    (r : WRow) (k : String)
    (hk : ∀ doc, build_doc r = some doc → doc.wellId ≠ k) :
    key_docs (import_step (store, stats) r).1 k = key_docs store k := by
  by_cases hskip : skip_row r = true
  · rw [step_skip store stats r hskip]
  · have hs : skip_row r = false := by simpa using hskip
    cases hdoc : build_doc r with
    | none => rw [step_error store stats r hs hdoc]
    | some doc =>
      have hne := hk doc hdoc
      cases hfind : find_doc store doc.wellId with
      | none =>
        rw [step_notfound store stats r doc hs hdoc hfind]
        exact key_docs_append_other store doc k hne
      | some old =>
        rw [step_found store stats r doc old hs hdoc hfind]
        exact key_docs_map_other store doc (apply_set old doc) k rfl
          (fun h => hne h.symm)

/-- After a good row's own step, its document's key is stable: the key is
present and re-applying $set with the same document changes nothing. -/
theorem step_establishes (store : List WellDoc) (stats : UpStats) (r : WRow)
    (doc : WellDoc) (hskip : skip_row r = false)
    (hdoc : build_doc r = some doc) :
    key_stable (import_step (store, stats) r).1 doc := by
  cases hfind : find_doc store doc.wellId with
  | none =>
    rw [step_notfound store stats r doc hskip hdoc hfind]
    refine ⟨?_, ?_⟩
    · rw [key_docs_append_self store doc hfind]
      simp
    · intro x hx
      rw [key_docs_append_self store doc hfind] at hx
      rw [List.mem_singleton.mp hx]
      exact apply_set_self doc
  | some old =>
    rw [step_found store stats r doc old hskip hdoc hfind]
    refine ⟨?_, ?_⟩
    · exact List.ne_nil_of_mem
        (key_docs_map_self_mem store doc old (apply_set old doc) hfind rfl)
    · intro x hx
      rw [key_docs_map_self_all store doc (apply_set old doc) x hx]
      exact apply_set_idem old doc

/-- Processing rows whose documents avoid a key preserves that key's
stability. -/
theorem stable_preserved_foldl (rows : List WRow) :
    ∀ (store : List WellDoc) (stats : UpStats) (d : WellDoc),
      key_stable store d →
      (∀ r ∈ rows, ∀ doc, build_doc r = some doc → doc.wellId ≠ d.wellId) →
      key_stable (rows.foldl import_step (store, stats)).1 d := by
  induction rows with
  | nil => intro store stats d h _; exact h
  | cons r rest ih =>
    intro store stats d h hk
    rw [List.foldl_cons]
    have h1 : key_stable (import_step (store, stats) r).1 d :=
      key_stable_of_eq
        (step_store_other_keys store stats r d.wellId
          (fun doc hdoc => hk r (List.mem_cons_self r rest) doc hdoc)) h
    exact ih (import_step (store, stats) r).1 (import_step (store, stats) r).2 d
      h1 (fun r2 hr2 doc hdoc => hk r2 (List.mem_cons_of_mem r hr2) doc hdoc)

/-- After a whole run with pairwise distinct well identities, every
non-skipped row that builds a document has a stable key in the final
store. -/
theorem run_establishes (rows : List WRow) :
    ∀ (store : List WellDoc) (stats : UpStats),
      (rows.map wrow_key).Nodup →
      ∀ r ∈ rows, skip_row r = false → ∀ doc, build_doc r = some doc →
        key_stable (rows.foldl import_step (store, stats)).1 doc := by
  induction rows with
  | nil => intro store stats _ r hr; cases hr
  | cons r0 rest ih =>
    intro store stats hnd r hr hskip doc hdoc
    rw [List.map_cons] at hnd
    have hnd' : (rest.map wrow_key).Nodup := (List.nodup_cons.mp hnd).2
    have hr0notin : wrow_key r0 ∉ rest.map wrow_key := (List.nodup_cons.mp hnd).1
    rw [List.foldl_cons]
    rcases List.mem_cons.mp hr with rfl | hr'
    · have hest : key_stable (import_step (store, stats) r).1 doc :=
        step_establishes store stats r doc hskip hdoc
      exact stable_preserved_foldl rest (import_step (store, stats) r).1
        (import_step (store, stats) r).2 doc hest
        (fun r2 hr2 doc2 hdoc2 => by
          rw [build_doc_key hdoc2, build_doc_key hdoc]
          intro hcontra
          exact hr0notin (hcontra ▸ List.mem_map_of_mem wrow_key hr2))
    · exact ih (import_step (store, stats) r0).1 (import_step (store, stats) r0).2
        hnd' r hr' hskip doc hdoc

/-- A step at a stable key (whose $set fixes the found document)
preserves the stability of every key. -/
theorem stable_step_preserves (store : List WellDoc) (doc old : WellDoc)
    (hfind : find_doc store doc.wellId = some old)
    (hmerged : apply_set old doc = old) :
    ∀ d2, key_stable store d2 →
      key_stable
        (store.map (fun d => if d.wellId == doc.wellId then apply_set old doc else d))
        d2 := by
  intro d2 h2
  by_cases hkey : d2.wellId = doc.wellId
  · have hfind2 : store.find? (fun d => d.wellId == doc.wellId) = some old := hfind
    have hold_mem : old ∈ key_docs store doc.wellId := by
      refine mem_key_docs.mpr ⟨List.mem_of_find?_eq_some hfind2, ?_⟩
      have h := List.find?_some hfind2
      simpa using h
    have hset : apply_set old d2 = old := h2.2 old (hkey ▸ hold_mem)
    refine ⟨?_, ?_⟩
    · rw [hkey]
      exact List.ne_nil_of_mem
        (key_docs_map_self_mem store doc old (apply_set old doc) hfind rfl)
    · intro x hx
      rw [hkey] at hx
      have hxm := key_docs_map_self_all store doc (apply_set old doc) x hx
      rw [hxm, hmerged]
      exact hset
  · exact key_stable_of_eq
      (key_docs_map_other store doc (apply_set old doc) d2.wellId rfl hkey) h2

/-- Running the importer over rows whose keys are all stable in the store
adds nothing to inserted and updated. -/
theorem run_stable_counts (rows : List WRow) :
    ∀ (store : List WellDoc) (stats : UpStats),
      (∀ r ∈ rows, skip_row r = false → ∀ doc, build_doc r = some doc →
        key_stable store doc) →
      ((rows.foldl import_step (store, stats)).2.inserted = stats.inserted ∧
       (rows.foldl import_step (store, stats)).2.updated = stats.updated) := by
  induction rows with
  | nil => intro store stats _; exact ⟨rfl, rfl⟩
  | cons r rest ih =>
    intro store stats hst
    rw [List.foldl_cons]
    by_cases hskip : skip_row r = true
    · rw [step_skip store stats r hskip]
      exact ih store _ (fun r2 hr2 => hst r2 (List.mem_cons_of_mem r hr2))
    · have hs : skip_row r = false := by simpa using hskip
      cases hdoc : build_doc r with
      | none =>
        rw [step_error store stats r hs hdoc]
        exact ih store _ (fun r2 hr2 => hst r2 (List.mem_cons_of_mem r hr2))
      | some doc =>
        have hstable := hst r (List.mem_cons_self r rest) hs doc hdoc
        obtain ⟨old, hf⟩ : ∃ old, find_doc store doc.wellId = some old := by
          cases hfc : find_doc store doc.wellId with
          | none => exact absurd (find_doc_eq_none_iff.mp hfc) hstable.1
          | some old => exact ⟨old, rfl⟩
        have hf2 : store.find? (fun d => d.wellId == doc.wellId) = some old := hf
        have hold_mem : old ∈ key_docs store doc.wellId := by
          refine mem_key_docs.mpr ⟨List.mem_of_find?_eq_some hf2, ?_⟩
          have h := List.find?_some hf2
          simpa using h
        have hmerged : apply_set old doc = old := hstable.2 old hold_mem
        rw [step_found store stats r doc old hs hdoc hf, if_pos hmerged]
        exact ih _ _
          (fun r2 hr2 hs2 doc2 hdoc2 =>
            stable_step_preserves store doc old hf hmerged doc2
              (hst r2 (List.mem_cons_of_mem r hr2) hs2 doc2 hdoc2))

/-- A row that reaches update_one: it passes the skip checks and builds a
document without a conversion error. -/
def is_good (r : WRow) : Bool :=
  !(skip_row r) && (build_doc r).isSome

/-- Every run classifies each good row as exactly one of inserted,
updated or unchanged: the three counters sum to the number of good
rows. -/
theorem import_counts (rows : List WRow) :
    ∀ (store : List WellDoc) (stats : UpStats),
      (rows.foldl import_step (store, stats)).2.inserted +
        (rows.foldl import_step (store, stats)).2.updated +
        (rows.foldl import_step (store, stats)).2.unchanged =
      stats.inserted + stats.updated + stats.unchanged +
        (rows.filter is_good).length := by
  induction rows with
  | nil => intro store stats; simp
  | cons r rest ih =>
    intro store stats
    rw [List.foldl_cons, List.filter_cons]
    by_cases hskip : skip_row r = true
    · have hg : is_good r = false := by simp [is_good, hskip]
      rw [step_skip store stats r hskip, hg]
      have h := ih store { stats with skipped := stats.skipped + 1 }
      simpa using h
    · have hs : skip_row r = false := by simpa using hskip
      cases hdoc : build_doc r with
      | none =>
        have hg : is_good r = false := by simp [is_good, hs, hdoc]
        rw [step_error store stats r hs hdoc, hg]
        have h := ih store { stats with errors := stats.errors + 1 }
        simpa using h
      | some doc =>
        have hg : is_good r = true := by simp [is_good, hs, hdoc]
        rw [hg]
        cases hfind : find_doc store doc.wellId with
        | none =>
          rw [step_notfound store stats r doc hs hdoc hfind]
          have h := ih (store ++ [doc])
            { stats with inserted := stats.inserted + 1 }
          simp only [List.length_cons, if_true] at h ⊢
          omega
        | some old =>
          rw [step_found store stats r doc old hs hdoc hfind]
          by_cases heq : apply_set old doc = old
          · rw [if_pos heq]
            have h := ih
              (store.map
                (fun d => if d.wellId == doc.wellId then apply_set old doc else d))
              { stats with unchanged := stats.unchanged + 1 }
            simp only [List.length_cons, if_true] at h ⊢
            omega
          · rw [if_neg heq]
            have h := ih
              (store.map
                (fun d => if d.wellId == doc.wellId then apply_set old doc else d))
              { stats with updated := stats.updated + 1 }
            simp only [List.length_cons, if_true] at h ⊢
            omega

/-- A wide record that passes every check: resolved coordinates, a named
village, one January water level, no coordinates column. -/
def sample_row : WRow :=
  ⟨Cell.strOther "W1", Cell.strOther "Alandurai", Cell.num 10, Cell.num 76,
    Cell.num 5, Cell.na, Cell.na, Cell.na, none⟩

/-- C4 counterexample: mongo.py's importer (also cited by the claim) has
no unchanged class; re-running it on the unchanged record set against the
store left by the first run classifies the record as updated, so the
second run's updated count is 1, not 0. -/
theorem C4_counterexample :
    (import_well_data_legacy
        (import_well_data_legacy [] [sample_row]).1 [sample_row]).2.updated = 1 ∧
    (import_well_data_legacy
        (import_well_data_legacy [] [sample_row]).1 [sample_row]).2.updated ≠ 0 := by
  refine ⟨by decide, by decide⟩

/-- C4 amended (the pipeline importer of csv1.py): re-running
import_well_data on an unchanged set of wide records with pairwise
distinct well identities, against the store state left by the first run,
yields inserted = 0 and updated = 0, and classifies as unchanged exactly
the records the first run persisted (its inserted, updated and unchanged
records); skipped and errored records repeat their first-run outcome.
mongo.py's standalone importer instead reports all those records as
updated. -/
theorem C4_second_run_unchanged (store0 : List WellDoc) (rows : List WRow)
    (hnd : (rows.map wrow_key).Nodup) :
    (import_well_data (import_well_data store0 rows).1 rows).2.inserted = 0 ∧
    (import_well_data (import_well_data store0 rows).1 rows).2.updated = 0 ∧
    (import_well_data (import_well_data store0 rows).1 rows).2.unchanged =
      (import_well_data store0 rows).2.inserted +
        (import_well_data store0 rows).2.updated +
        (import_well_data store0 rows).2.unchanged := by
  have hstab : ∀ r ∈ rows, skip_row r = false → ∀ doc, build_doc r = some doc →
      key_stable (import_well_data store0 rows).1 doc :=
    fun r hr hs doc hd =>
      run_establishes rows store0 ⟨0, 0, 0, 0, 0⟩ hnd r hr hs doc hd
  obtain ⟨hins, hupd⟩ :=
    run_stable_counts rows (import_well_data store0 rows).1 ⟨0, 0, 0, 0, 0⟩ hstab
  refine ⟨hins, hupd, ?_⟩
  have h2 := import_counts rows (import_well_data store0 rows).1 ⟨0, 0, 0, 0, 0⟩
  have h1 := import_counts rows store0 ⟨0, 0, 0, 0, 0⟩
  unfold import_well_data at hins hupd h2 ⊢
  dsimp only at hins hupd h1 h2 ⊢
  omega

/-- Witness for C4's amended theorem: one fully resolved record run twice
against an empty store: the second run inserts and updates nothing and
counts the record as unchanged. -/
theorem C4_second_run_unchanged_witness :
    (import_well_data (import_well_data [] [sample_row]).1 [sample_row]).2.inserted = 0 ∧
    (import_well_data (import_well_data [] [sample_row]).1 [sample_row]).2.updated = 0 ∧
    (import_well_data (import_well_data [] [sample_row]).1 [sample_row]).2.unchanged =
      (import_well_data [] [sample_row]).2.inserted +
        (import_well_data [] [sample_row]).2.updated +
        (import_well_data [] [sample_row]).2.unchanged :=
  C4_second_run_unchanged [] [sample_row] (by decide)

end Scrap
